import Mathlib

/-
Verification of the measurement core of the Django Mercury performance
profiler: the session engine (fixed-capacity pool of monitoring sessions
with generation-stamped handles) and the query pattern analyzer
(normalization, similarity clustering, and the N+1 severity/cause
classifier).  The engine itself ships as a binary; its behaviour is
modelled here from the specification, with constants (pool capacity 2048,
N+1 threshold 12, name/type buffer bounds 256/64) corroborated by the
declarations and fixtures in the repository's C test suite.
-/

namespace Mercury

/-! ## N1Classifier -/

/-- Modelled from the spec: the N+1 "pattern likely" threshold.  The
implementation of `detect_n_plus_one_pattern_by_count` is not in the
repository sources; the spec fixes a single threshold of 12, matched by
the boundary fixtures in the C tests. -/
def N_PLUS_ONE_THRESHOLD : Nat := 12

/-- Modelled from the spec: `is_pattern(n)` is true once the query count
crosses the fixed N+1 threshold. -/
def is_pattern (n : Nat) : Bool := decide (N_PLUS_ONE_THRESHOLD ≤ n)

/-- Modelled from the spec: the severity step table (implementation file
absent from the sources).  Breakpoints follow the spec's suggested
calibration: 0 queries map to None, single digits to Mild, low teens to
Moderate, low twenties to High, mid twenties through the forties to
Severe, and fifty or more to Critical. -/
def n_plus_one_severity (n : Nat) : Nat :=
  if n = 0 then 0
  else if n < 10 then 1
  else if n < 20 then 2
  else if n < 25 then 3
  else if n < 50 then 4
  else 5

/-- Snapshot returned by stopping a session.  Field names follow the
`EnhancedPerformanceMetrics_t` struct declared in the repository's test
sources (mutex and session id bookkeeping omitted). -/
structure EnhancedPerformanceMetrics where
  start_time_ns : Nat
  end_time_ns : Nat
  memory_start_bytes : Nat
  memory_peak_bytes : Nat
  memory_end_bytes : Nat
  session_query_count : Nat
  session_cache_hits : Nat
  session_cache_misses : Nat
  operation_name : List Char
  operation_type : List Char
deriving DecidableEq

/-- Modelled from the spec: elapsed wall time of a snapshot in
milliseconds; the subtraction clamps at zero.  Real arithmetic is
modelled over the rationals. -/
def get_elapsed_time_ms (m : EnhancedPerformanceMetrics) : ℚ :=
  ((m.end_time_ns - m.start_time_ns : Nat) : ℚ) / 1000000

/-- Modelled from the spec: `has_n_plus_one_pattern` over an optional
snapshot; a null snapshot is treated as zero queries. -/
def has_n_plus_one_pattern (m : Option EnhancedPerformanceMetrics) : Bool :=
  match m with
  | none => false
  | some mm => is_pattern mm.session_query_count

/-- Modelled from the spec: pattern detection by count over an optional
snapshot (`detect_n_plus_one_pattern_by_count`). -/
def detect_n_plus_one_pattern_by_count (m : Option EnhancedPerformanceMetrics) : Bool :=
  has_n_plus_one_pattern m

/-- Modelled from the spec: severity of an optional snapshot
(`calculate_n_plus_one_severity`); a null snapshot yields severity 0. -/
def calculate_n_plus_one_severity (m : Option EnhancedPerformanceMetrics) : Nat :=
  match m with
  | none => 0
  | some mm => n_plus_one_severity mm.session_query_count

/-- Modelled from the spec: cache hit ratio of an optional snapshot,
exactly 0 when no cache operation occurred, hits/(hits+misses)
otherwise. -/
def get_cache_hit_ratio (m : Option EnhancedPerformanceMetrics) : ℚ :=
  match m with
  | none => 0
  | some mm =>
    if mm.session_cache_hits + mm.session_cache_misses = 0 then 0
    else (mm.session_cache_hits : ℚ) / ((mm.session_cache_hits : ℚ) + (mm.session_cache_misses : ℚ))

/-- Modelled from the spec: average per-query latency in milliseconds,
computed as elapsed time over query count, zero when no query ran. -/
def avg_time_per_query (m : EnhancedPerformanceMetrics) : ℚ :=
  if m.session_query_count = 0 then 0
  else get_elapsed_time_ms m / (m.session_query_count : ℚ)

/-- Modelled from the spec: the latency breakpoint (milliseconds per
query) separating the serializer diagnosis from the foreign-key
diagnosis; calibrated between the fast fixture (1.2 ms) and the slow
fixture (about 4.3 ms) of the C tests. -/
def FAST_AVG_MS : ℚ := 2

/-- Modelled from the spec: `estimate_n_plus_one_cause`.  Below the
pattern threshold (and on a null snapshot) the cause is None (0);
moderate counts give RelatedModel (2); high counts give Serializer (1)
when the average per-query latency is low and ForeignKey (3) otherwise;
very high counts (50 and above) give Complex (4). -/
def estimate_n_plus_one_cause (m : Option EnhancedPerformanceMetrics) : Nat :=
  match m with
  | none => 0
  | some mm =>
    let n := mm.session_query_count
    if n < N_PLUS_ONE_THRESHOLD then 0
    else if 50 ≤ n then 4
    else if n < 20 then 2
    else if avg_time_per_query mm < FAST_AVG_MS then 1
    else 3

/-! ## SessionPool -/

/-- Error kinds returned as values by the engine. -/
inductive MercuryError where
  | invalidArgument
  | invalidHandle
  | resourceExhausted
deriving DecidableEq

/-- Modelled from the spec: the session pool capacity.  The pool
implementation is absent from the sources; the C edge tests pin the
capacity at 2048 slots. -/
def MAX_ACTIVE_METRICS : Nat := 2048

/-- Handles pack a slot index into the low 32 bits and the slot
generation above them. -/
def HANDLE_SHIFT : Nat := 2 ^ 32

/-- Bound on stored operation names (256-byte buffer, one byte reserved
for the terminator), from the struct declared in the test sources. -/
def OPERATION_NAME_CAP : Nat := 255

/-- Bound on stored operation types (64-byte buffer, one byte reserved
for the terminator), from the struct declared in the test sources. -/
def OPERATION_TYPE_CAP : Nat := 63

/-- Modelled from the spec: the fixed sentinel operation type substituted
when the caller passes no type. -/
def DEFAULT_OPERATION_TYPE : List Char := String.data "general"

/-- One slot of the session pool. -/
structure SessionSlot where
  active : Bool
  generation : Nat
  operation_name : List Char
  operation_type : List Char
  start_time_ns : Nat
  start_memory_bytes : Nat
  start_query_count : Nat
  start_cache_hits : Nat
  start_cache_misses : Nat
deriving DecidableEq

/-- Modelled from the spec: the pool of session slots together with the
process-wide counters of the global counter fabric. -/
structure MonitorState where
  slots : Fin MAX_ACTIVE_METRICS → SessionSlot
  query_count : Nat
  cache_hits : Nat
  cache_misses : Nat

/-- A fresh inactive slot; generations start at 1 so that no valid handle
is ever zero. -/
def freshSlot : SessionSlot :=
  { active := false, generation := 1, operation_name := [], operation_type := []
    start_time_ns := 0, start_memory_bytes := 0, start_query_count := 0
    start_cache_hits := 0, start_cache_misses := 0 }

/-- The initial monitor state: every slot free, counters zero. -/
def monitorInit : MonitorState :=
  { slots := fun _ => freshSlot, query_count := 0, cache_hits := 0, cache_misses := 0 }

/-- Encode a slot index and generation into an integer handle. -/
def handleEncode (i : Fin MAX_ACTIVE_METRICS) (g : Nat) : Int :=
  ((g * HANDLE_SHIFT + i.val : Nat) : Int)

/-- Decode a handle: negative or zero handles are rejected, then the low
bits give the slot index (rejected when out of range) and the high bits
the expected generation. -/
def decodeHandle (h : Int) : Option (Fin MAX_ACTIVE_METRICS × Nat) :=
  if h ≤ 0 then none
  else
    if hidx : h.toNat % HANDLE_SHIFT < MAX_ACTIVE_METRICS then
      some (⟨h.toNat % HANDLE_SHIFT, hidx⟩, h.toNat / HANDLE_SHIFT)
    else none

/-- First free slot of the pool, scanning in index order. -/
def findFreeSlot (st : MonitorState) : Option (Fin MAX_ACTIVE_METRICS) :=
  (List.finRange MAX_ACTIVE_METRICS).find? (fun i => !(st.slots i).active)

/-- The occupied slot stamped by `start`: truncated name, type defaulted
to the sentinel and truncated, start time, memory sample and counter
values recorded, generation kept. -/
def startSlot (st : MonitorState) (i : Fin MAX_ACTIVE_METRICS)
    (nm : List Char) (ty : Option (List Char)) (now mem : Nat) : SessionSlot :=
  { active := true, generation := (st.slots i).generation
    operation_name := nm.take OPERATION_NAME_CAP
    operation_type := (ty.getD DEFAULT_OPERATION_TYPE).take OPERATION_TYPE_CAP
    start_time_ns := now, start_memory_bytes := mem
    start_query_count := st.query_count
    start_cache_hits := st.cache_hits
    start_cache_misses := st.cache_misses }

/-- The state after slot `i` is claimed by `start`. -/
def mkStarted (st : MonitorState) (i : Fin MAX_ACTIVE_METRICS)
    (nm : List Char) (ty : Option (List Char)) (now mem : Nat) : MonitorState :=
  { st with slots := Function.update st.slots i (startSlot st i nm ty now mem) }

/-- Modelled from the spec: `start(name, type)`.  A missing or empty name
is an invalid argument; a missing type falls back to the sentinel; with
no free slot the pool is exhausted; otherwise the chosen slot is stamped
with the start time, memory sample and counter values and an
index/generation handle is returned. -/
def start_performance_monitoring_enhanced (st : MonitorState)
    (name ty : Option (List Char)) (now mem : Nat) :
    Except MercuryError (Int × MonitorState) :=
  match name with
  | none => .error .invalidArgument
  | some nm =>
    if nm = [] then .error .invalidArgument
    else
      match findFreeSlot st with
      | none => .error .resourceExhausted
      | some i =>
        .ok (handleEncode i (st.slots i).generation, mkStarted st i nm ty now mem)

/-- The snapshot computed when slot `i` is stopped at time `now` with
memory sample `mem`: counter deltas against the stamped start values,
with natural subtraction clamping at zero. -/
def mkMetrics (st : MonitorState) (i : Fin MAX_ACTIVE_METRICS) (now mem : Nat) :
    EnhancedPerformanceMetrics :=
  let slot := st.slots i
  { start_time_ns := slot.start_time_ns, end_time_ns := now
    memory_start_bytes := slot.start_memory_bytes
    memory_peak_bytes := max mem slot.start_memory_bytes
    memory_end_bytes := mem
    session_query_count := st.query_count - slot.start_query_count
    session_cache_hits := st.cache_hits - slot.start_cache_hits
    session_cache_misses := st.cache_misses - slot.start_cache_misses
    operation_name := slot.operation_name
    operation_type := slot.operation_type }

/-- The state after slot `i` is released: inactive, generation bumped so
the old handle goes stale. -/
def mkStopped (st : MonitorState) (i : Fin MAX_ACTIVE_METRICS) : MonitorState :=
  { st with
    slots := Function.update st.slots i
      { st.slots i with active := false, generation := (st.slots i).generation + 1 } }

/-- Modelled from the spec: `stop(handle)`.  Fails with an invalid-handle
error on a non-positive handle, an out-of-range index, a stale
generation, or an inactive slot; on success returns the snapshot and
releases the slot. -/
def stop_performance_monitoring_enhanced (st : MonitorState) (h : Int)
    (now mem : Nat) :
    Except MercuryError (EnhancedPerformanceMetrics × MonitorState) :=
  match decodeHandle h with
  | none => .error .invalidHandle
  | some (i, g) =>
    if (st.slots i).active && ((st.slots i).generation == g) then
      .ok (mkMetrics st i now mem, mkStopped st i)
    else .error .invalidHandle

/-- Number of concurrently active sessions. -/
def sessionActiveCount (st : MonitorState) : Nat :=
  (Finset.univ.filter fun i => (st.slots i).active = true).card

/-- Invariant: every slot generation is at least 1. -/
def GoodGen (st : MonitorState) : Prop :=
  ∀ i, 1 ≤ (st.slots i).generation

/-- A handle is valid and in flight: positive encoding of an in-range
index whose slot is active with a matching generation. -/
def ValidHandle (st : MonitorState) (i : Fin MAX_ACTIVE_METRICS) (g : Nat) : Prop :=
  1 ≤ g ∧ (st.slots i).active = true ∧ (st.slots i).generation = g

/-- A fully occupied pool state with generation-1 slots, as produced by
filling the pool to capacity. -/
def monitorFull : MonitorState :=
  { slots := fun _ =>
      { active := true, generation := 1
        operation_name := String.data "SlotTest", operation_type := String.data "test"
        start_time_ns := 0, start_memory_bytes := 0, start_query_count := 0
        start_cache_hits := 0, start_cache_misses := 0 }
    query_count := 0, cache_hits := 0, cache_misses := 0 }

/-! ## QueryAnalyzer: normalization -/

/-- Query text is modelled as its byte values. -/
def strBytes (s : String) : List Nat := s.data.map Char.toNat

/-- Whitespace bytes collapsed by normalization: space, tab, newline. -/
def isWSb (b : Nat) : Bool := b == 32 || b == 9 || b == 10

/-- ASCII case folding of one byte. -/
def toLowerByte (b : Nat) : Nat := if 65 ≤ b ∧ b ≤ 90 then b + 32 else b

/-- Modelled from the spec: strip the trailing run of semicolons. -/
def stripTrailingSemis (s : List Nat) : List Nat :=
  (s.reverse.dropWhile fun b => b == 59).reverse

/-- Modelled from the spec: remove inline comments.  Mode 0 copies text,
mode 1 is inside a block comment opened by slash-star and closed by
star-slash, mode 2 is inside a line comment opened by a double dash and
closed by the end of the line (the newline itself is kept as a
separator). -/
def stripCommentsGo (mode : Nat) : List Nat → List Nat
  | [] => []
  | [b] =>
    if mode = 1 then []
    else if mode = 2 then if b == 10 then [10] else []
    else [b]
  | b :: b2 :: rest =>
    if mode = 1 then
      if b == 42 && b2 == 47 then stripCommentsGo 0 rest
      else stripCommentsGo 1 (b2 :: rest)
    else if mode = 2 then
      if b == 10 then 10 :: stripCommentsGo 0 (b2 :: rest)
      else stripCommentsGo 2 (b2 :: rest)
    else
      if b == 47 && b2 == 42 then stripCommentsGo 1 rest
      else if b == 45 && b2 == 45 then stripCommentsGo 2 rest
      else b :: stripCommentsGo 0 (b2 :: rest)

/-- Remove inline comments from a query text. -/
def stripComments (s : List Nat) : List Nat := stripCommentsGo 0 s

/-- Collapse whitespace runs to single spaces: `inRun` records that the
scanner is inside a run whose single space is still pending. -/
def collapseGo (inRun : Bool) : List Nat → List Nat
  | [] => []
  | b :: rest =>
    if isWSb b then collapseGo true rest
    else if inRun then 32 :: b :: collapseGo false rest
    else b :: collapseGo false rest

/-- Modelled from the spec: collapse consecutive whitespace to single
spaces and trim the ends. -/
def collapseWS (s : List Nat) : List Nat :=
  collapseGo false (s.dropWhile fun b => isWSb b)

/-- The comment-free, semicolon-free, case-folded form of a query; two
texts differ only in letter case, whitespace runs, inline comments and
trailing semicolons exactly when their preprocessed forms differ only in
whitespace runs. -/
def preprocessQuery (s : List Nat) : List Nat :=
  (stripComments (stripTrailingSemis s)).map toLowerByte

/-- Modelled from the spec: deterministic query normalization (case fold,
whitespace collapse, comment and trailing-semicolon stripping). -/
def normalize_query (s : List Nat) : List Nat := collapseWS (preprocessQuery s)

/-- Modelled from the spec: the external string-hash primitive (an
FNV-style 64-bit fold). -/
def hashBytes (s : List Nat) : Nat :=
  s.foldl (fun h b => (h * 1099511628211 + b) % 18446744073709551616) 14695981039346656037

/-- Modelled from the spec: the cluster signature is the hash of the
normalized text. -/
def query_signature (s : List Nat) : Nat := hashBytes (normalize_query s)

/-- Whitespace-separated tokens of a text, accumulating the current token
in reverse in `acc`. -/
def tokGo (acc : List Nat) : List Nat → List (List Nat)
  | [] => if acc = [] then [] else [acc.reverse]
  | b :: rest =>
    if isWSb b then
      if acc = [] then tokGo [] rest else acc.reverse :: tokGo [] rest
    else tokGo (b :: acc) rest

/-- Whitespace-separated tokens of a text. -/
def wsTokens (s : List Nat) : List (List Nat) := tokGo [] s

/-- Join tokens with single spaces. -/
def joinTokens : List (List Nat) → List Nat
  | [] => []
  | [t] => t
  | t :: ts => t ++ 32 :: joinTokens ts

/-! ## QueryAnalyzer: clustering -/

/-- Modelled from the spec: the fixed truncation bound on analyzed query
text. -/
def MERCURY_MAX_QUERY_LENGTH : Nat := 4096

/-- Modelled from the spec: the fixed capacity of the cluster pool. -/
def MAX_QUERY_CLUSTERS : Nat := 1000

/-- A cluster of queries sharing a normalized signature. -/
structure QueryCluster where
  signature : Nat
  example_text : List Nat
  count : Nat
  total_time_ms : ℚ
  first_seen : Nat
  last_seen : Nat

/-- Analyzer-wide state: total queries analyzed and the bounded cluster
pool. -/
structure QueryAnalyzerState where
  total_queries : Nat
  clusters : List QueryCluster

/-- The reset (initial) analyzer state. -/
def analyzerInit : QueryAnalyzerState := { total_queries := 0, clusters := [] }

/-- Bump the member count, cumulative time and last-seen stamp of the
cluster carrying `sig`. -/
def bumpCluster (cs : List QueryCluster) (sig : Nat) (t : ℚ) (order : Nat) :
    List QueryCluster :=
  match cs with
  | [] => []
  | c :: rest =>
    if c.signature == sig then
      { c with count := c.count + 1,
               total_time_ms := c.total_time_ms + t,
               last_seen := order } :: rest
    else c :: bumpCluster rest sig t order

/-- A fresh cluster for a newly seen signature. -/
def newCluster (sig : Nat) (txt : List Nat) (t : ℚ) (order : Nat) : QueryCluster :=
  { signature := sig, example_text := txt, count := 1, total_time_ms := t
    first_seen := order, last_seen := order }

/-- Modelled from the spec: the success path of `analyze_query`.  The
text is truncated to the fixed bound, its signature looked up; a match
updates that cluster, a new signature opens a cluster when the pool has
room and is otherwise only counted; the total always advances by one. -/
def analyzeCore (st : QueryAnalyzerState) (txt : List Nat) (t : ℚ) :
    QueryAnalyzerState :=
  let txt' := txt.take MERCURY_MAX_QUERY_LENGTH
  let sig := query_signature txt'
  let order := st.total_queries
  if st.clusters.any fun c => c.signature == sig then
    { total_queries := st.total_queries + 1
      clusters := bumpCluster st.clusters sig t order }
  else if st.clusters.length < MAX_QUERY_CLUSTERS then
    { total_queries := st.total_queries + 1
      clusters := st.clusters ++ [newCluster sig txt' t order] }
  else { st with total_queries := st.total_queries + 1 }

/-- Modelled from the spec: `analyze(text, exec_time)` fails only when
the text is absent (a null reference); any present text, including the
empty string, is analyzed. -/
def analyze_query (st : QueryAnalyzerState) (txt : Option (List Nat)) (t : ℚ) :
    Except MercuryError QueryAnalyzerState :=
  match txt with
  | none => .error .invalidArgument
  | some s => .ok (analyzeCore st s t)

/-! ## Concrete fixtures used by the witness instances -/

/-- Slot index 0. -/
def slot0 : Fin MAX_ACTIVE_METRICS := ⟨0, by decide⟩

/-- Mock snapshot mirroring `create_mock_metrics` of the C test suite:
`n` queries over `elapsed_ns` nanoseconds with the given cache counts. -/
def fixtureMetrics (n : Nat) (elapsed_ns : Nat) (hits misses : Nat) :
    EnhancedPerformanceMetrics :=
  { start_time_ns := 0, end_time_ns := elapsed_ns
    memory_start_bytes := 0, memory_peak_bytes := 0, memory_end_bytes := 0
    session_query_count := n, session_cache_hits := hits
    session_cache_misses := misses, operation_name := [], operation_type := [] }

/-! ## Theorems: N1Classifier -/

/-- Claim C1: the N+1 severity classification is a monotonic step
function of the query count: severities respect the order of counts,
zero queries yield severity None (0), and any count of at least 50
yields Critical (5). -/
theorem claim_C1_severity_monotone_step :
    (∀ m n : Nat, m ≤ n → n_plus_one_severity m ≤ n_plus_one_severity n)
    ∧ n_plus_one_severity 0 = 0
    ∧ (∀ n : Nat, 50 ≤ n → n_plus_one_severity n = 5) := by
  refine ⟨?_, rfl, ?_⟩
  · intro m n h
    unfold n_plus_one_severity
    split_ifs <;> omega
  · intro n h
    unfold n_plus_one_severity
    split_ifs <;> omega

/-- Witness for C1 at the counts 3 ≤ 27 and 64. -/
theorem claim_C1_witness :
    n_plus_one_severity 3 ≤ n_plus_one_severity 27 ∧ n_plus_one_severity 64 = 5 :=
  ⟨claim_C1_severity_monotone_step.1 3 27 (by decide),
   claim_C1_severity_monotone_step.2.2 64 (by decide)⟩

/-- Claim C2: the N+1 pattern predicate has the single fixed threshold
12: it is false for every count below 12 and true for every count at or
above it, including the paginated shapes 21 and 51; the snapshot-level
detectors agree with the count predicate and treat a null snapshot as no
pattern. -/
theorem claim_C2_pattern_threshold :
    (∀ n : Nat, n < 12 → is_pattern n = false)
    ∧ (∀ n : Nat, 12 ≤ n → is_pattern n = true)
    ∧ is_pattern 21 = true ∧ is_pattern 51 = true
    ∧ (∀ m : EnhancedPerformanceMetrics,
        has_n_plus_one_pattern (some m) = is_pattern m.session_query_count)
    ∧ detect_n_plus_one_pattern_by_count = has_n_plus_one_pattern
    ∧ has_n_plus_one_pattern none = false := by
  refine ⟨?_, ?_, rfl, rfl, fun m => rfl, rfl, rfl⟩
  · intro n h
    simp only [is_pattern, N_PLUS_ONE_THRESHOLD, decide_eq_false_iff_not]
    omega
  · intro n h
    simp only [is_pattern, N_PLUS_ONE_THRESHOLD, decide_eq_true_eq]
    omega

/-- Witness for C2 at the boundary counts 11 and 12. -/
theorem claim_C2_witness : is_pattern 11 = false ∧ is_pattern 12 = true :=
  ⟨claim_C2_pattern_threshold.1 11 (by decide),
   claim_C2_pattern_threshold.2.1 12 (by decide)⟩

/-- Claim C8: the cache hit ratio of a snapshot is exactly 0 when both
cache counters are zero, equals hits/(hits+misses) otherwise, and always
lies between 0 and 1. -/
theorem claim_C8_cache_hit_bounds (m : EnhancedPerformanceMetrics) :
    (m.session_cache_hits = 0 ∧ m.session_cache_misses = 0 →
      get_cache_hit_ratio (some m) = 0)
    ∧ (m.session_cache_hits + m.session_cache_misses ≠ 0 →
      get_cache_hit_ratio (some m) =
        (m.session_cache_hits : ℚ) /
          ((m.session_cache_hits : ℚ) + (m.session_cache_misses : ℚ)))
    ∧ 0 ≤ get_cache_hit_ratio (some m)
    ∧ get_cache_hit_ratio (some m) ≤ 1 := by
  unfold get_cache_hit_ratio
  by_cases hz : m.session_cache_hits + m.session_cache_misses = 0
  · simp [hz]
  · have hpos : (0 : ℚ) < (m.session_cache_hits : ℚ) + (m.session_cache_misses : ℚ) := by
      have : 0 < m.session_cache_hits + m.session_cache_misses := Nat.pos_of_ne_zero hz
      exact_mod_cast this
    refine ⟨fun h => absurd (by omega : m.session_cache_hits + m.session_cache_misses = 0) hz, fun _ => by simp [hz], ?_, ?_⟩
    · simp only [hz, if_false]
      exact div_nonneg (by positivity) (le_of_lt hpos)
    · simp only [hz, if_false]
      rw [div_le_one hpos]
      have hmn : (0 : ℚ) ≤ (m.session_cache_misses : ℚ) := by positivity
      linarith

/-- Witness for C8 on a snapshot with 2 hits and 1 miss, and one with no
cache activity. -/
theorem claim_C8_witness :
    get_cache_hit_ratio (some (fixtureMetrics 10 0 2 1)) =
      ((2 : ℚ) / ((2 : ℚ) + (1 : ℚ)))
    ∧ get_cache_hit_ratio (some (fixtureMetrics 10 0 0 0)) = 0
    ∧ 0 ≤ get_cache_hit_ratio (some (fixtureMetrics 10 0 2 1)) :=
  ⟨(claim_C8_cache_hit_bounds (fixtureMetrics 10 0 2 1)).2.1 (by decide),
   (claim_C8_cache_hit_bounds (fixtureMetrics 10 0 0 0)).1 (by decide),
   (claim_C8_cache_hit_bounds (fixtureMetrics 10 0 2 1)).2.2.1⟩

-- The average-latency comparison of the cause estimator, restated over
-- the integer nanosecond fields so that concrete instances are decidable.
theorem avg_lt_fast_iff (m : EnhancedPerformanceMetrics)
    (hn : 0 < m.session_query_count) :
    (avg_time_per_query m < FAST_AVG_MS ↔
      m.end_time_ns - m.start_time_ns < 2000000 * m.session_query_count) := by
  unfold avg_time_per_query get_elapsed_time_ms FAST_AVG_MS
  rw [if_neg (by omega : ¬ m.session_query_count = 0)]
  have hnq : (0 : ℚ) < (m.session_query_count : ℚ) := by exact_mod_cast hn
  rw [div_lt_iff hnq, div_lt_iff (by norm_num : (0 : ℚ) < 1000000)]
  rw [show (2 : ℚ) * (m.session_query_count : ℚ) * 1000000
        = ((2000000 * m.session_query_count : Nat) : ℚ) by push_cast; ring]
  exact_mod_cast Iff.rfl

/-- Claim C9: cause estimation returns None (0) on a null snapshot and
for every count below the pattern threshold; RelatedModel (2) for
moderate counts (12 to 19); Serializer (1) for high counts (20 to 49)
with low average per-query latency and ForeignKey (3) for such counts
with higher latency; and Complex (4) for counts of 50 and above. -/
theorem claim_C9_cause_estimation :
    estimate_n_plus_one_cause none = 0
    ∧ (∀ m : EnhancedPerformanceMetrics, is_pattern m.session_query_count = false →
        estimate_n_plus_one_cause (some m) = 0)
    ∧ (∀ m : EnhancedPerformanceMetrics, m.session_query_count < N_PLUS_ONE_THRESHOLD →
        estimate_n_plus_one_cause (some m) = 0)
    ∧ (∀ m : EnhancedPerformanceMetrics,
        N_PLUS_ONE_THRESHOLD ≤ m.session_query_count → m.session_query_count < 20 →
        estimate_n_plus_one_cause (some m) = 2)
    ∧ (∀ m : EnhancedPerformanceMetrics,
        20 ≤ m.session_query_count → m.session_query_count < 50 →
        avg_time_per_query m < FAST_AVG_MS →
        estimate_n_plus_one_cause (some m) = 1)
    ∧ (∀ m : EnhancedPerformanceMetrics,
        20 ≤ m.session_query_count → m.session_query_count < 50 →
        FAST_AVG_MS ≤ avg_time_per_query m →
        estimate_n_plus_one_cause (some m) = 3)
    ∧ (∀ m : EnhancedPerformanceMetrics, 50 ≤ m.session_query_count →
        estimate_n_plus_one_cause (some m) = 4) := by
  refine ⟨rfl, ?_, ?_, ?_, ?_, ?_, ?_⟩
  · intro m h
    simp only [is_pattern, decide_eq_false_iff_not, not_le] at h
    simp only [estimate_n_plus_one_cause]
    split_ifs <;> omega
  · intro m h
    simp only [estimate_n_plus_one_cause]
    split_ifs <;> omega
  · intro m h1 h2
    simp only [estimate_n_plus_one_cause, N_PLUS_ONE_THRESHOLD] at h1 ⊢
    split_ifs <;> omega
  · intro m h1 h2 h3
    simp only [estimate_n_plus_one_cause, N_PLUS_ONE_THRESHOLD]
    split_ifs <;> first | rfl | omega | linarith
  · intro m h1 h2 h3
    simp only [estimate_n_plus_one_cause, N_PLUS_ONE_THRESHOLD]
    split_ifs <;> first | rfl | omega | linarith
  · intro m h
    simp only [estimate_n_plus_one_cause, N_PLUS_ONE_THRESHOLD]
    split_ifs <;> omega

/-- Witness for C9 on the mock fixtures of the C test suite: 15 queries
in 150 ms, 25 fast queries in 30 ms, 35 slower queries in 150 ms and 60
queries in 600 ms. -/
theorem claim_C9_witness :
    estimate_n_plus_one_cause (some (fixtureMetrics 15 150000000 10 5)) = 2
    ∧ estimate_n_plus_one_cause (some (fixtureMetrics 25 30000000 10 5)) = 1
    ∧ estimate_n_plus_one_cause (some (fixtureMetrics 35 150000000 10 5)) = 3
    ∧ estimate_n_plus_one_cause (some (fixtureMetrics 60 600000000 10 5)) = 4
    ∧ estimate_n_plus_one_cause (some (fixtureMetrics 5 50000000 10 5)) = 0 :=
  ⟨claim_C9_cause_estimation.2.2.2.1 (fixtureMetrics 15 150000000 10 5)
      (by decide) (by decide),
   claim_C9_cause_estimation.2.2.2.2.1 (fixtureMetrics 25 30000000 10 5)
      (by decide) (by decide)
      ((avg_lt_fast_iff (fixtureMetrics 25 30000000 10 5) (by decide)).mpr (by decide)),
   claim_C9_cause_estimation.2.2.2.2.2.1 (fixtureMetrics 35 150000000 10 5)
      (by decide) (by decide)
      (le_of_not_lt fun hc =>
        absurd ((avg_lt_fast_iff (fixtureMetrics 35 150000000 10 5) (by decide)).mp hc)
          (by decide)),
   claim_C9_cause_estimation.2.2.2.2.2.2 (fixtureMetrics 60 600000000 10 5)
      (by decide),
   claim_C9_cause_estimation.2.2.1 (fixtureMetrics 5 50000000 10 5) (by decide)⟩

/-! ## Theorems: query normalization and the analyzer -/

-- A tokenizer run that enters with a partially read token always
-- produces at least one token.
theorem tokGo_ne_nil (s : List Nat) : ∀ acc, acc ≠ [] → tokGo acc s ≠ [] := by
  induction s with
  | nil =>
    intro acc h
    simp [tokGo, h]
  | cons b rest ih =>
    intro acc h
    by_cases hb : isWSb b
    · simp [tokGo, hb, h]
    · simpa [tokGo, hb] using ih (b :: acc) (by simp)

-- Joining a token onto a nonempty tail inserts a single space.
theorem joinTokens_cons (x : List Nat) (T : List (List Nat)) (hT : T ≠ []) :
    joinTokens (x :: T) = x ++ 32 :: joinTokens T := by
  cases T with
  | nil => exact absurd rfl hT
  | cons y ts => simp [joinTokens]

-- The whitespace collapser and the tokenizer walk texts in lockstep:
-- with a pending token the joined tokens are that token followed by the
-- collapsed rest, and inside a whitespace run the collapser emits the
-- pending single space exactly when another token follows.
theorem tok_collapse (s : List Nat) :
    (∀ acc, acc ≠ [] →
      joinTokens (tokGo acc s) = acc.reverse ++ collapseGo false s)
    ∧ collapseGo true s =
        (if tokGo ([] : List Nat) s = [] then [] else 32 :: joinTokens (tokGo [] s)) := by
  induction s with
  | nil =>
    refine ⟨fun acc h => ?_, by simp [tokGo, collapseGo]⟩
    simp [tokGo, h, joinTokens, collapseGo]
  | cons b rest ih =>
    obtain ⟨ih1, ih2⟩ := ih
    constructor
    · intro acc h
      by_cases hb : isWSb b
      · by_cases ht : tokGo ([] : List Nat) rest = []
        · simp [tokGo, hb, h, ht, joinTokens, collapseGo, ih2]
        · simp [tokGo, hb, h, collapseGo, joinTokens_cons _ _ ht, ih2, ht]
      · have hstep := ih1 (b :: acc) (by simp)
        simp [tokGo, hb, h, collapseGo, hstep]
    · by_cases hb : isWSb b
      · simp [tokGo, hb, collapseGo, ih2]
      · have hne := tokGo_ne_nil rest (b :: ([] : List Nat)) (by simp)
        have hstep := ih1 (b :: ([] : List Nat)) (by simp)
        simp [tokGo, hb, collapseGo, hne, hstep]

-- Whitespace collapsing is rendering the whitespace tokens with single
-- separating spaces.
theorem collapseWS_factor (s : List Nat) : collapseWS s = joinTokens (wsTokens s) := by
  induction s with
  | nil => rfl
  | cons b rest ih =>
    by_cases hb : isWSb b
    · simpa [collapseWS, wsTokens, List.dropWhile_cons, hb, tokGo] using ih
    · have hstep := (tok_collapse rest).1 (b :: ([] : List Nat)) (by simp)
      simp [collapseWS, wsTokens, List.dropWhile_cons, hb, tokGo, collapseGo, hstep]

/-- Claim C7: normalization is deterministic, and two query texts that
differ only in letter case, whitespace runs, inline comments or trailing
semicolons — that is, whose comment-stripped, semicolon-stripped,
case-folded forms carry the same whitespace-separated tokens — receive
the same cluster signature. -/
theorem claim_C7_normalization_signature (s t : List Nat)
    (h : wsTokens (preprocessQuery s) = wsTokens (preprocessQuery t)) :
    query_signature s = query_signature t := by
  unfold query_signature normalize_query
  rw [collapseWS_factor, collapseWS_factor, h]

/-- Witness for C7: a query with trailing semicolons and single spaces
against the same query with different casing, a block comment, a tab, a
newline and doubled spaces. -/
theorem claim_C7_witness :
    wsTokens (preprocessQuery (strBytes "SELECT * FROM users;;"))
      = wsTokens (preprocessQuery (strBytes "\tselect /* hint */ *\nFROM  USERS"))
    ∧ query_signature (strBytes "SELECT * FROM users;;")
      = query_signature (strBytes "\tselect /* hint */ *\nFROM  USERS") :=
  ⟨by decide,
   claim_C7_normalization_signature
     (strBytes "SELECT * FROM users;;")
     (strBytes "\tselect /* hint */ *\nFROM  USERS") (by decide)⟩

-- Every branch of the analyzer success path advances the total by one.
theorem analyzeCore_total (st : QueryAnalyzerState) (s : List Nat) (t : ℚ) :
    (analyzeCore st s t).total_queries = st.total_queries + 1 := by
  simp only [analyzeCore]
  split_ifs <;> rfl

/-- Claim C6: `analyze_query` fails exactly on an absent (null) text: it
returns the invalid-argument error for a null text, succeeds on every
present text — including the empty string and over-long texts, which are
truncated (the result only depends on the truncated text) — and each
success increments `total_queries` by exactly one. -/
theorem claim_C6_analyze_null_only :
    (∀ st t, analyze_query st none t = Except.error MercuryError.invalidArgument)
    ∧ (∀ st s t, ∃ st', analyze_query st (some s) t = Except.ok st'
        ∧ st'.total_queries = st.total_queries + 1)
    ∧ (∀ st t, ∃ st', analyze_query st (some []) t = Except.ok st'
        ∧ st'.total_queries = st.total_queries + 1)
    ∧ (∀ st s t, analyzeCore st s t
        = analyzeCore st (s.take MERCURY_MAX_QUERY_LENGTH) t) := by
  refine ⟨fun st t => rfl,
    fun st s t => ⟨analyzeCore st s t, rfl, analyzeCore_total st s t⟩,
    fun st t => ⟨analyzeCore st [] t, rfl, analyzeCore_total st [] t⟩,
    fun st s t => ?_⟩
  unfold analyzeCore
  rw [List.take_take]
  simp

/-! ## Theorems: session pool helpers -/

-- Decoding inverts encoding for any positive generation.
theorem decodeHandle_encode (i : Fin MAX_ACTIVE_METRICS) (g : Nat) (hg : 1 ≤ g) :
    decodeHandle (handleEncode i g) = some (i, g) := by
  have hS : 0 < HANDLE_SHIFT := by norm_num [HANDLE_SHIFT]
  have hiS : i.val < HANDLE_SHIFT := by
    have h1 := i.isLt
    have h2 : MAX_ACTIVE_METRICS < HANDLE_SHIFT := by norm_num [MAX_ACTIVE_METRICS, HANDLE_SHIFT]
    omega
  have hpos : 0 < g * HANDLE_SHIFT + i.val := by
    have h1 : HANDLE_SHIFT ≤ g * HANDLE_SHIFT := Nat.le_mul_of_pos_left _ hg
    omega
  have hmod : (g * HANDLE_SHIFT + i.val) % HANDLE_SHIFT = i.val := by
    rw [Nat.mul_comm, Nat.mul_add_mod, Nat.mod_eq_of_lt hiS]
  have hdiv : (g * HANDLE_SHIFT + i.val) / HANDLE_SHIFT = g := by
    rw [Nat.mul_comm, Nat.mul_add_div hS, Nat.div_eq_of_lt hiS, Nat.add_zero]
  unfold decodeHandle handleEncode
  rw [if_neg (by simp only [not_le]; exact_mod_cast hpos)]
  simp only [Int.toNat_natCast]
  rw [dif_pos (by rw [hmod]; exact i.isLt)]
  simp only [Option.some.injEq, Prod.mk.injEq]
  exact ⟨Fin.ext hmod, hdiv⟩

-- The free-slot scan returns nothing exactly when every slot is active.
theorem findFreeSlot_eq_none (st : MonitorState) :
    findFreeSlot st = none ↔ ∀ i, (st.slots i).active = true := by
  unfold findFreeSlot
  rw [List.find?_eq_none]
  constructor
  · intro H i
    have := H i (List.mem_finRange i)
    simpa using this
  · intro H x _
    simp [H x]

-- A slot returned by the free-slot scan is indeed free.
theorem findFreeSlot_free (st : MonitorState) (j : Fin MAX_ACTIVE_METRICS)
    (hf : findFreeSlot st = some j) : (st.slots j).active = false := by
  unfold findFreeSlot at hf
  have := List.find?_some hf
  simpa using this

-- If some slot is free the scan finds one.
theorem findFreeSlot_exists (st : MonitorState) (i : Fin MAX_ACTIVE_METRICS)
    (h : (st.slots i).active = false) : ∃ j, findFreeSlot st = some j := by
  cases hf : findFreeSlot st with
  | some j => exact ⟨j, rfl⟩
  | none =>
    have := (findFreeSlot_eq_none st).mp hf i
    rw [h] at this
    exact absurd this (by simp)

-- On the fresh pool the scan hands out slot 0 without traversing the
-- whole range.
theorem findFreeSlot_monitorInit : findFreeSlot monitorInit = some slot0 := by
  unfold findFreeSlot
  have h : List.finRange MAX_ACTIVE_METRICS
      = slot0 :: ((List.finRange 2047).map Fin.succ) := List.finRange_succ_eq_map 2047
  rw [h, List.find?_cons_of_pos _ (by rfl)]

-- Successful start on a free slot.
theorem start_ok_intro (st : MonitorState) (nm : List Char) (ty : Option (List Char))
    (now mem : Nat) (i : Fin MAX_ACTIVE_METRICS) (hnm : nm ≠ [])
    (hf : findFreeSlot st = some i) :
    start_performance_monitoring_enhanced st (some nm) ty now mem
      = Except.ok (handleEncode i (st.slots i).generation, mkStarted st i nm ty now mem) := by
  simp only [start_performance_monitoring_enhanced]
  rw [if_neg hnm, hf]

-- Start on a fully occupied pool reports exhaustion.
theorem start_full_exhausted (st : MonitorState) (nm : List Char)
    (ty : Option (List Char)) (now mem : Nat) (hnm : nm ≠ [])
    (hfull : ∀ i, (st.slots i).active = true) :
    start_performance_monitoring_enhanced st (some nm) ty now mem
      = Except.error MercuryError.resourceExhausted := by
  simp only [start_performance_monitoring_enhanced]
  rw [if_neg hnm, (findFreeSlot_eq_none st).mpr hfull]

-- Anatomy of a successful start.
theorem start_ok_elim (st : MonitorState) (nm : List Char) (ty : Option (List Char))
    (now mem : Nat) (h2 : Int) (st' : MonitorState)
    (hok : start_performance_monitoring_enhanced st (some nm) ty now mem
      = Except.ok (h2, st')) :
    ∃ i, findFreeSlot st = some i
      ∧ h2 = handleEncode i (st.slots i).generation
      ∧ st' = mkStarted st i nm ty now mem := by
  simp only [start_performance_monitoring_enhanced] at hok
  by_cases hnm : nm = []
  · rw [if_pos hnm] at hok
    exact absurd hok (by simp)
  · rw [if_neg hnm] at hok
    cases hf : findFreeSlot st with
    | none => rw [hf] at hok; exact absurd hok (by simp)
    | some i =>
      rw [hf] at hok
      injection hok with hp
      injection hp with ha hb
      exact ⟨i, rfl, ha.symm, hb.symm⟩

-- Successful stop of an active, generation-matching slot.
theorem stop_ok_intro (st : MonitorState) (h : Int) (i : Fin MAX_ACTIVE_METRICS)
    (g : Nat) (now mem : Nat) (hdec : decodeHandle h = some (i, g))
    (hact : (st.slots i).active = true) (hgen : (st.slots i).generation = g) :
    stop_performance_monitoring_enhanced st h now mem
      = Except.ok (mkMetrics st i now mem, mkStopped st i) := by
  unfold stop_performance_monitoring_enhanced
  rw [hdec]
  simp [hact, hgen]

-- Anatomy of a successful stop.
theorem stop_ok_elim (st : MonitorState) (h : Int) (now mem : Nat)
    (m : EnhancedPerformanceMetrics) (st' : MonitorState)
    (hok : stop_performance_monitoring_enhanced st h now mem = Except.ok (m, st')) :
    ∃ i g, decodeHandle h = some (i, g)
      ∧ (st.slots i).active = true
      ∧ (st.slots i).generation = g
      ∧ m = mkMetrics st i now mem
      ∧ st' = mkStopped st i := by
  unfold stop_performance_monitoring_enhanced at hok
  cases hdec : decodeHandle h with
  | none => rw [hdec] at hok; exact absurd hok (by simp)
  | some pr =>
    obtain ⟨i, g⟩ := pr
    rw [hdec] at hok
    by_cases hc : ((st.slots i).active && ((st.slots i).generation == g)) = true
    · have hca : (st.slots i).active = true := by
        simp only [Bool.and_eq_true] at hc
        exact hc.1
      have hcg : (st.slots i).generation = g := by
        simp only [Bool.and_eq_true, beq_iff_eq] at hc
        exact hc.2
      simp only [hc, if_true, Except.ok.injEq, Prod.mk.injEq] at hok
      exact ⟨i, g, rfl, hca, hcg, hok.1.symm, hok.2.symm⟩
    · simp only [hc, if_false] at hok
      exact absurd hok (by simp)

/-! ## Theorems: session pool claims -/

/-- Claim C3: at most the pool capacity (2048 slots) of sessions can be
concurrently active; with every slot occupied, `start` fails with the
resource-exhausted error; and after filling the pool, stopping one
session lets exactly one new `start` succeed — the very next `start`
after the reuse is again rejected. -/
theorem claim_C3_capacity_and_reuse :
    (∀ st, sessionActiveCount st ≤ MAX_ACTIVE_METRICS)
    ∧ (∀ st nm ty now mem, nm ≠ [] → (∀ i, (st.slots i).active = true) →
        start_performance_monitoring_enhanced st (some nm) ty now mem
          = Except.error MercuryError.resourceExhausted)
    ∧ (∀ st h now mem m st' nm ty now2 mem2,
        (∀ i, (st.slots i).active = true) →
        stop_performance_monitoring_enhanced st h now mem = Except.ok (m, st') →
        nm ≠ [] →
        ∃ h2 st'',
          start_performance_monitoring_enhanced st' (some nm) ty now2 mem2
            = Except.ok (h2, st'')
          ∧ ∀ nm2 ty2 now3 mem3, nm2 ≠ [] →
              start_performance_monitoring_enhanced st'' (some nm2) ty2 now3 mem3
                = Except.error MercuryError.resourceExhausted) := by
  refine ⟨?_, ?_, ?_⟩
  · intro st
    unfold sessionActiveCount
    calc (Finset.univ.filter fun i => (st.slots i).active = true).card
        ≤ Finset.univ.card := Finset.card_filter_le _ _
      _ = MAX_ACTIVE_METRICS := by rw [Finset.card_univ, Fintype.card_fin]
  · intro st nm ty now mem hnm hfull
    exact start_full_exhausted st nm ty now mem hnm hfull
  · intro st h now mem m st' nm ty now2 mem2 hfull hstop hnm
    obtain ⟨i, g, hdec, hact, hgen, hm, hst'⟩ := stop_ok_elim st h now mem m st' hstop
    subst hst'
    have hfree : ((mkStopped st i).slots i).active = false := by
      simp [mkStopped, Function.update_same]
    obtain ⟨j, hf⟩ := findFreeSlot_exists (mkStopped st i) i hfree
    have hji : j = i := by
      by_contra hne
      have h1 : ((mkStopped st i).slots j).active = false := findFreeSlot_free _ j hf
      have h2 : ((mkStopped st i).slots j).active = true := by
        simp only [mkStopped, Function.update_noteq hne]
        exact hfull j
      rw [h1] at h2
      exact Bool.false_ne_true h2
    subst hji
    refine ⟨_, _, start_ok_intro _ nm ty now2 mem2 j hnm hf, ?_⟩
    intro nm2 ty2 now3 mem3 hnm2
    apply start_full_exhausted _ nm2 ty2 now3 mem3 hnm2
    intro k
    by_cases hk : k = j
    · subst hk
      simp [mkStarted, Function.update_same, startSlot]
    · simp only [mkStarted, Function.update_noteq hk, mkStopped,
        Function.update_noteq hk]
      exact hfull k

/-- Witness for C3: on the fully occupied pool, `start` is rejected;
stopping the slot-0 session lets one `start` succeed and the next one is
rejected again. -/
theorem claim_C3_witness :
    start_performance_monitoring_enhanced monitorFull (some (String.data "Over")) none 0 0
      = Except.error MercuryError.resourceExhausted
    ∧ ∃ m st' h2 st'',
        stop_performance_monitoring_enhanced monitorFull (handleEncode slot0 1) 1 0
          = Except.ok (m, st')
        ∧ start_performance_monitoring_enhanced st' (some (String.data "Reuse")) none 2 0
            = Except.ok (h2, st'')
        ∧ start_performance_monitoring_enhanced st'' (some (String.data "Extra")) none 3 0
            = Except.error MercuryError.resourceExhausted := by
  have hfull : ∀ i, (monitorFull.slots i).active = true := fun i => rfl
  have hstop : stop_performance_monitoring_enhanced monitorFull (handleEncode slot0 1) 1 0
      = Except.ok (mkMetrics monitorFull slot0 1 0, mkStopped monitorFull slot0) := rfl
  refine ⟨claim_C3_capacity_and_reuse.2.1 monitorFull (String.data "Over") none 0 0
      (by decide) hfull, ?_⟩
  obtain ⟨h2, st'', hstart, hfail⟩ :=
    claim_C3_capacity_and_reuse.2.2 monitorFull (handleEncode slot0 1) 1 0
      (mkMetrics monitorFull slot0 1 0) (mkStopped monitorFull slot0)
      (String.data "Reuse") none 2 0 hfull hstop (by decide)
  exact ⟨_, _, h2, st'', hstop, hstart,
    hfail (String.data "Extra") none 3 0 (by decide)⟩

/-- Claim C4: stopping any non-positive handle, any handle whose index
is out of range, or any stale handle (in particular one already stopped)
returns the invalid-handle error; the first stop of a valid in-flight
handle succeeds, bumps the slot generation past the handle, and every
further stop of the same handle fails; no operation ever lowers a slot
generation, so a stale handle stays stale. -/
theorem claim_C4_invalid_handle_safety :
    (∀ st (h : Int) now mem, h ≤ 0 →
        stop_performance_monitoring_enhanced st h now mem
          = Except.error MercuryError.invalidHandle)
    ∧ (∀ st (h : Int) now mem, MAX_ACTIVE_METRICS ≤ h.toNat % HANDLE_SHIFT →
        stop_performance_monitoring_enhanced st h now mem
          = Except.error MercuryError.invalidHandle)
    ∧ (∀ st i g now mem, ValidHandle st i g →
        ∃ m st',
          stop_performance_monitoring_enhanced st (handleEncode i g) now mem
            = Except.ok (m, st')
          ∧ (st'.slots i).generation = g + 1
          ∧ ∀ now2 mem2,
              stop_performance_monitoring_enhanced st' (handleEncode i g) now2 mem2
                = Except.error MercuryError.invalidHandle)
    ∧ (∀ st i g now mem, 1 ≤ g → (st.slots i).generation ≠ g →
        stop_performance_monitoring_enhanced st (handleEncode i g) now mem
          = Except.error MercuryError.invalidHandle)
    ∧ (∀ st name ty now mem h2 st',
        start_performance_monitoring_enhanced st name ty now mem = Except.ok (h2, st') →
        ∀ i, (st.slots i).generation ≤ (st'.slots i).generation)
    ∧ (∀ st (h : Int) now mem m st',
        stop_performance_monitoring_enhanced st h now mem = Except.ok (m, st') →
        ∀ i, (st.slots i).generation ≤ (st'.slots i).generation) := by
  refine ⟨?_, ?_, ?_, ?_, ?_, ?_⟩
  · intro st h now mem h0
    have hdec : decodeHandle h = none := by
      unfold decodeHandle
      rw [if_pos h0]
    unfold stop_performance_monitoring_enhanced
    rw [hdec]
  · intro st h now mem hrange
    have hdec : decodeHandle h = none := by
      unfold decodeHandle
      split_ifs with h1 h2
      · rfl
      · exact absurd h2 (by omega)
      · rfl
    unfold stop_performance_monitoring_enhanced
    rw [hdec]
  · intro st i g now mem hv
    obtain ⟨hg, hact, hgen⟩ := hv
    have hdec := decodeHandle_encode i g hg
    refine ⟨_, _, stop_ok_intro st _ i g now mem hdec hact hgen, ?_, ?_⟩
    · simp [mkStopped, Function.update_same, hgen]
    · intro now2 mem2
      unfold stop_performance_monitoring_enhanced
      rw [hdec]
      simp [mkStopped, Function.update_same]
  · intro st i g now mem hg hne
    have hdec := decodeHandle_encode i g hg
    unfold stop_performance_monitoring_enhanced
    rw [hdec]
    simp [hne]
  · intro st name ty now mem h2 st' hok i
    cases name with
    | none => exact absurd hok (by simp [start_performance_monitoring_enhanced])
    | some nm =>
      obtain ⟨j, hf, hh, hst'⟩ := start_ok_elim st nm ty now mem h2 st' hok
      subst hst'
      by_cases hij : i = j
      · subst hij
        simp [mkStarted, Function.update_same, startSlot]
      · simp [mkStarted, Function.update_noteq hij]
  · intro st h now mem m st' hok i
    obtain ⟨j, g, hdec, hact, hgen, hm, hst'⟩ := stop_ok_elim st h now mem m st' hok
    subst hst'
    by_cases hij : i = j
    · subst hij
      simp only [mkStopped, Function.update_same]
      omega
    · simp [mkStopped, Function.update_noteq hij]

/-- Witness for C4: handles 0 and −7 are rejected, handle 4096 decodes
to an out-of-range index and is rejected, slot 0 of the full pool stops
once and then fails, and the future-generation handle of slot 0 is
rejected as stale. -/
theorem claim_C4_witness :
    stop_performance_monitoring_enhanced monitorInit 0 0 0
      = Except.error MercuryError.invalidHandle
    ∧ stop_performance_monitoring_enhanced monitorInit (-7) 0 0
      = Except.error MercuryError.invalidHandle
    ∧ stop_performance_monitoring_enhanced monitorInit 4096 0 0
      = Except.error MercuryError.invalidHandle
    ∧ (∃ m st',
        stop_performance_monitoring_enhanced monitorFull (handleEncode slot0 1) 5 6
          = Except.ok (m, st')
        ∧ (st'.slots slot0).generation = 2
        ∧ ∀ now2 mem2,
            stop_performance_monitoring_enhanced st' (handleEncode slot0 1) now2 mem2
              = Except.error MercuryError.invalidHandle)
    ∧ stop_performance_monitoring_enhanced monitorFull (handleEncode slot0 2) 0 0
      = Except.error MercuryError.invalidHandle :=
  ⟨claim_C4_invalid_handle_safety.1 monitorInit 0 0 0 (by decide),
   claim_C4_invalid_handle_safety.1 monitorInit (-7) 0 0 (by decide),
   claim_C4_invalid_handle_safety.2.1 monitorInit 4096 0 0 (by decide),
   claim_C4_invalid_handle_safety.2.2.1 monitorFull slot0 1 5 6
     ⟨le_refl 1, rfl, rfl⟩,
   claim_C4_invalid_handle_safety.2.2.2.1 monitorFull slot0 2 0 0 (by decide)
     (by decide)⟩

/-- Claim C5: `start` fails with the invalid-argument error whenever the
operation name is absent, whatever the type; with a valid name and an
absent type it succeeds (given a free slot) and stores the fixed default
sentinel as the operation type. -/
theorem claim_C5_name_required_type_defaulted :
    (∀ st ty now mem,
        start_performance_monitoring_enhanced st none ty now mem
          = Except.error MercuryError.invalidArgument)
    ∧ (∀ st nm now mem (i : Fin MAX_ACTIVE_METRICS), nm ≠ [] →
        (st.slots i).active = false →
        ∃ (j : Fin MAX_ACTIVE_METRICS) (h : Int) (st' : MonitorState),
          findFreeSlot st = some j
          ∧ start_performance_monitoring_enhanced st (some nm) none now mem
              = Except.ok (h, st')
          ∧ (st'.slots j).operation_type = DEFAULT_OPERATION_TYPE) := by
  refine ⟨fun st ty now mem => rfl, ?_⟩
  intro st nm now mem i hnm hfree
  obtain ⟨j, hf⟩ := findFreeSlot_exists st i hfree
  refine ⟨j, _, _, hf, start_ok_intro st nm none now mem j hnm hf, ?_⟩
  simp only [mkStarted, Function.update_same, startSlot, Option.getD]
  rfl

/-- Witness for C5: starting with a null name and any type fails, and
starting with name TestOp and a null type on the fresh pool succeeds
with the default operation type recorded. -/
theorem claim_C5_witness :
    start_performance_monitoring_enhanced monitorInit none
        (some (String.data "view")) 0 0
      = Except.error MercuryError.invalidArgument
    ∧ ∃ (j : Fin MAX_ACTIVE_METRICS) (h : Int) (st' : MonitorState),
        findFreeSlot monitorInit = some j
        ∧ start_performance_monitoring_enhanced monitorInit
            (some (String.data "TestOp")) none 0 0 = Except.ok (h, st')
        ∧ (st'.slots j).operation_type = DEFAULT_OPERATION_TYPE :=
  ⟨claim_C5_name_required_type_defaulted.1 monitorInit (some (String.data "view")) 0 0,
   claim_C5_name_required_type_defaulted.2 monitorInit (String.data "TestOp") 0 0
     slot0 (by decide) rfl⟩

/-- Claim C10: every handle returned by a successful `start` is strictly
positive — zero is never handed out — and stopping handle 0 always
fails with the invalid-handle error; the underlying generation invariant
holds initially and is preserved by `start` and `stop`. -/
theorem claim_C10_handles_strictly_positive :
    (∀ st name ty now mem (h : Int) st', GoodGen st →
        start_performance_monitoring_enhanced st name ty now mem = Except.ok (h, st') →
        0 < h)
    ∧ (∀ st now mem,
        stop_performance_monitoring_enhanced st 0 now mem
          = Except.error MercuryError.invalidHandle)
    ∧ GoodGen monitorInit
    ∧ (∀ st name ty now mem (h : Int) st', GoodGen st →
        start_performance_monitoring_enhanced st name ty now mem = Except.ok (h, st') →
        GoodGen st')
    ∧ (∀ st (h : Int) now mem m st', GoodGen st →
        stop_performance_monitoring_enhanced st h now mem = Except.ok (m, st') →
        GoodGen st') := by
  refine ⟨?_, ?_, fun i => le_refl 1, ?_, ?_⟩
  · intro st name ty now mem h st' hgood hok
    cases name with
    | none => exact absurd hok (by simp [start_performance_monitoring_enhanced])
    | some nm =>
      obtain ⟨i, hf, hh, hst'⟩ := start_ok_elim st nm ty now mem h st' hok
      subst hh
      unfold handleEncode
      have h1 : HANDLE_SHIFT ≤ (st.slots i).generation * HANDLE_SHIFT :=
        Nat.le_mul_of_pos_left _ (hgood i)
      have h2 : 0 < (st.slots i).generation * HANDLE_SHIFT + i.val := by
        have : 0 < HANDLE_SHIFT := by norm_num [HANDLE_SHIFT]
        omega
      exact_mod_cast h2
  · intro st now mem
    rfl
  · intro st name ty now mem h st' hgood hok i
    cases name with
    | none => exact absurd hok (by simp [start_performance_monitoring_enhanced])
    | some nm =>
      obtain ⟨j, hf, hh, hst'⟩ := start_ok_elim st nm ty now mem h st' hok
      subst hst'
      by_cases hij : i = j
      · subst hij
        simpa [mkStarted, Function.update_same, startSlot] using hgood i
      · simpa [mkStarted, Function.update_noteq hij] using hgood i
  · intro st h now mem m st' hgood hok i
    obtain ⟨j, g, hdec, hact, hgen, hm, hst'⟩ := stop_ok_elim st h now mem m st' hok
    subst hst'
    by_cases hij : i = j
    · subst hij
      simp [mkStopped, Function.update_same]
    · simpa [mkStopped, Function.update_noteq hij] using hgood i

/-- Witness for C10: the first handle handed out on the fresh pool is
strictly positive, and stopping handle 0 fails. -/
theorem claim_C10_witness :
    (0 : Int) < handleEncode slot0 1
    ∧ stop_performance_monitoring_enhanced monitorInit 0 0 0
      = Except.error MercuryError.invalidHandle :=
  ⟨claim_C10_handles_strictly_positive.1 monitorInit (some (String.data "Op")) none 0 0
      (handleEncode slot0 1) (mkStarted monitorInit slot0 (String.data "Op") none 0 0)
      (fun i => le_refl 1)
      (start_ok_intro monitorInit (String.data "Op") none 0 0 slot0 (by decide)
        findFreeSlot_monitorInit),
   claim_C10_handles_strictly_positive.2.1 monitorInit 0 0⟩

end Mercury
